import Mathlib

/-!
Verification of the admin-dashboard client-side state-synchronization logic:
view-state controller (URL sync, pagination reset), remote data cache
(optimistic status mutation with snapshot/rollback/invalidation), debounce
utility, preference store, and network-error classifier.

Shallow embedding conventions:
* JavaScript strings are Lean `String`; the status union `'all'|'active'|'inactive'`
  is kept as `String` values, matching the untyped runtime behaviour.
* JavaScript numbers appearing as page indices / sizes are `Nat`.
* `String(n)` and `parseInt` (on the decimal strings the app produces) are
  modelled by `jsStringOfNat` / `jsParseNat` below.
* `undefined`/`null` are `Option.none`; thrown exceptions are `Except.error`.
-/

namespace Dashboard

/-! ## Data model (spec section 3, API shape section 6) -/

structure Role where
  roleId : String
  roleName : String
deriving DecidableEq, Repr

structure Group where
  groupId : String
  groupName : String
  roles : List Role
deriving DecidableEq, Repr

structure User where
  userId : String
  name : String
  email : String
  status : String
  createdAt : String
  groups : List Group
deriving DecidableEq, Repr

structure UsersData where
  users : List User
  totalCount : Nat
deriving DecidableEq, Repr

/-- Shape of `GET /api/users` responses: `{ data: { users, totalCount } }`. -/
structure UsersApiResponse where
  data : UsersData
deriving DecidableEq, Repr

/-! ## Decimal strings: model of JS `String(n)` and `parseInt` on digit strings -/

/-- Decimal digit character for `d < 10`. -/
def digitChar (d : Nat) : Char := Char.ofNat (48 + d)

/-- Big-endian decimal digits of `n`, as produced by JS `String(n)`. -/
def natToDigits (n : Nat) : List Char :=
  if h : n < 10 then [digitChar n]
  else natToDigits (n / 10) ++ [digitChar (n % 10)]
decreasing_by exact Nat.div_lt_self (by omega) (by omega)

/-- Model of JS `String(n)` for a natural number `n`. -/
def jsStringOfNat (n : Nat) : String := ⟨natToDigits n⟩

/-- Numeric value of a digit character, `none` on a non-digit. -/
def digitVal (c : Char) : Option Nat :=
  if 48 ≤ c.toNat ∧ c.toNat ≤ 57 then some (c.toNat - 48) else none

/-- Accumulating decimal parse of a character list. -/
def parseDigits (acc : Nat) : List Char → Option Nat
  | [] => some acc
  | c :: cs =>
    match digitVal c with
    | none => none
    | some d => parseDigits (acc * 10 + d) cs

/-- Model of JS `parseInt(s)` restricted to the non-negative decimal strings the
application itself serializes (`NaN` is modelled as `none`). -/
def jsParseNat (s : String) : Option Nat :=
  match s.data with
  | [] => none
  | _ => parseDigits 0 s.data

theorem digitVal_digitChar {d : Nat} (h : d < 10) : digitVal (digitChar d) = some d := by
  interval_cases d <;> rfl

theorem parseDigits_append (acc : Nat) (xs ys : List Char) :
    parseDigits acc (xs ++ ys) =
      (parseDigits acc xs).bind (fun m => parseDigits m ys) := by
  induction xs generalizing acc with
  | nil => rfl
  | cons c cs ih =>
    simp only [List.cons_append, parseDigits]
    cases digitVal c with
    | none => rfl
    | some d => exact ih _

theorem natToDigits_ne_nil (n : Nat) : natToDigits n ≠ [] := by
  rw [natToDigits]
  split <;> simp

theorem parseDigits_natToDigits (n : Nat) :
    ∀ acc, parseDigits acc (natToDigits n) =
      some (acc * 10 ^ (natToDigits n).length + n) := by
  induction n using natToDigits.induct with
  | case1 n h =>
    intro acc
    rw [natToDigits, dif_pos h]
    simp [parseDigits, digitVal_digitChar h]
  | case2 n h ih =>
    intro acc
    rw [natToDigits, dif_neg h, parseDigits_append, ih acc]
    have hm : digitVal (digitChar (n % 10)) = some (n % 10) :=
      digitVal_digitChar (Nat.mod_lt n (by omega))
    simp only [Option.some_bind, parseDigits, hm, List.length_append, List.length_cons,
      List.length_nil, Nat.zero_add]
    congr 1
    rw [pow_succ, ← mul_assoc]
    generalize acc * 10 ^ (natToDigits (n / 10)).length = b
    omega

/-- Round trip: parsing the decimal rendering of `n` recovers `n`. -/
theorem jsParseNat_jsStringOfNat (n : Nat) : jsParseNat (jsStringOfNat n) = some n := by
  have hne := natToDigits_ne_nil n
  unfold jsParseNat jsStringOfNat
  cases hd : natToDigits n with
  | nil => exact absurd hd hne
  | cons c cs =>
    simp only [String.data]
    rw [← hd]
    have := parseDigits_natToDigits n 0
    simpa using this

/-! ## View-state controller: UsersPage (final version, with offline support)

The page holds `searchQuery`, `statusFilter` and `pagination{pageIndex,pageSize}`;
it initializes them from the URL once on mount, serializes them back to the URL
on every change, and resets `pageIndex` to 0 when the settled (debounced) search
or the status filter changes — skipping the initial mount via an
`isInitialMount` ref plus `prev*` refs. -/

/-- URL query parameters relevant to the page, as optional raw strings
(`none` models an absent parameter / `searchParams.get(...) === null`). -/
structure UrlParams where
  page : Option String
  pageSize : Option String
  status : Option String
  query : Option String
deriving DecidableEq, Repr

/-- Material React Table pagination state. -/
structure PaginationState where
  pageIndex : Nat
  pageSize : Nat
deriving DecidableEq, Repr

/-- State initializer `searchParams.get('query') || ''` (JS `||` treats the
empty string as falsy). -/
def initSearchQuery (p : UrlParams) : String :=
  match p.query with
  | some q => if q = "" then "" else q
  | none => ""

/-- State initializer `(searchParams.get('status') as ...) || 'all'`. -/
def initStatusFilter (p : UrlParams) : String :=
  match p.status with
  | some s => if s = "" then "all" else s
  | none => "all"

/-- State initializer for pagination: `page ? parseInt(page) - 1 : 0` and
`pageSize ? parseInt(pageSize) : 10` (the app only ever serializes decimal
digit strings, so `parseInt` is modelled by `jsParseNat`). -/
def initPagination (p : UrlParams) : PaginationState :=
  { pageIndex :=
      match p.page with
      | some s => if s = "" then 0 else ((jsParseNat s).getD 0) - 1
      | none => 0,
    pageSize :=
      match p.pageSize with
      | some s => if s = "" then 10 else (jsParseNat s).getD 0
      | none => 10 }

/-- In-memory state of the UsersPage controller, including the refs used by
the pagination-reset effect. -/
structure ControllerState where
  searchQuery : String
  statusFilter : String
  pagination : PaginationState
  isInitialMount : Bool
  prevSearchQuery : String
  prevStatusFilter : String
deriving DecidableEq, Repr

/-- Mounting the page: state read once from the URL; `isInitialMount` starts
true; the `prev*` refs start at the current (debounced-initial) values. -/
def mountUsersPage (p : UrlParams) : ControllerState :=
  { searchQuery := initSearchQuery p
    statusFilter := initStatusFilter p
    pagination := initPagination p
    isInitialMount := true
    prevSearchQuery := initSearchQuery p
    prevStatusFilter := initStatusFilter p }

/-- URL sync effect: always sets `page` (as `pageIndex + 1`); sets `pageSize`,
`status`, `query` only when they differ from their defaults 10, `'all'`, `''`. -/
def serializeUrl (searchQuery statusFilter : String) (pagination : PaginationState) : UrlParams :=
  { page := some (jsStringOfNat (pagination.pageIndex + 1))
    pageSize := if pagination.pageSize ≠ 10 then some (jsStringOfNat pagination.pageSize) else none
    status := if statusFilter ≠ "all" then some statusFilter else none
    query := if searchQuery ≠ "" then some searchQuery else none }

/-- Pagination-reset effect, run whenever the debounced search query or the
status filter changes: skipped (snapshotting the prev refs) on the initial
mount; otherwise resets `pageIndex` to 0 exactly when one of the two settled
values differs from its previous settled value. -/
def resetEffect (debouncedSearchQuery : String) (s : ControllerState) : ControllerState :=
  if s.isInitialMount then
    { s with
      isInitialMount := false
      prevSearchQuery := debouncedSearchQuery
      prevStatusFilter := s.statusFilter }
  else if s.prevSearchQuery ≠ debouncedSearchQuery ∨ s.prevStatusFilter ≠ s.statusFilter then
    { s with
      pagination := { s.pagination with pageIndex := 0 }
      prevSearchQuery := debouncedSearchQuery
      prevStatusFilter := s.statusFilter }
  else s

/-- Search input handler: updates only the raw search text. -/
def handleSearchChange (value : String) (s : ControllerState) : ControllerState :=
  { s with searchQuery := value }

/-- Status filter handler: sets the filter and jumps to the first page. -/
def handleStatusFilterChange (value : String) (s : ControllerState) : ControllerState :=
  { s with
    statusFilter := value
    pagination := { s.pagination with pageIndex := 0 } }

/-- Pagination handler: adopts the grid's new pagination state verbatim. -/
def handlePaginationChange (newPagination : PaginationState) (s : ControllerState) :
    ControllerState :=
  { s with pagination := newPagination }

theorem jsStringOfNat_ne_empty (n : Nat) : jsStringOfNat n ≠ "" := by
  intro h
  have : (jsStringOfNat n).data = natToDigits n := rfl
  rw [h] at this
  exact natToDigits_ne_nil n this.symm

/-- C3: serializing a view state (page ≥ 1, any pageSize, status among
all/active/inactive, any query) to the URL and re-mounting the controller from
that URL reproduces the same searchText, statusFilter, page and pageSize; the
mount-time run of the reset effect leaves pagination untouched; and in
particular a URL with `page=3&status=active&query=bob` mounts to page 3
(pageIndex 2), statusFilter 'active', searchText 'bob'. -/
theorem c3_url_state_roundtrip (page pageSize : Nat) (status query : String)
    (hpage : 1 ≤ page)
    (hstatus : status = "all" ∨ status = "active" ∨ status = "inactive") :
    (mountUsersPage (serializeUrl query status ⟨page - 1, pageSize⟩)).searchQuery = query ∧
    (mountUsersPage (serializeUrl query status ⟨page - 1, pageSize⟩)).statusFilter = status ∧
    (mountUsersPage (serializeUrl query status ⟨page - 1, pageSize⟩)).pagination.pageIndex
      = page - 1 ∧
    (mountUsersPage (serializeUrl query status ⟨page - 1, pageSize⟩)).pagination.pageSize
      = pageSize ∧
    (resetEffect (mountUsersPage (serializeUrl query status ⟨page - 1, pageSize⟩)).searchQuery
        (mountUsersPage (serializeUrl query status ⟨page - 1, pageSize⟩))).pagination
      = (mountUsersPage (serializeUrl query status ⟨page - 1, pageSize⟩)).pagination ∧
    (mountUsersPage ⟨some "3", none, some "active", some "bob"⟩).pagination.pageIndex = 2 ∧
    (mountUsersPage ⟨some "3", none, some "active", some "bob"⟩).statusFilter = "active" ∧
    (mountUsersPage ⟨some "3", none, some "active", some "bob"⟩).searchQuery = "bob" := by
  have hpp : page - 1 + 1 = page := by omega
  refine ⟨?_, ?_, ?_, ?_, ?_, by decide, by decide, by decide⟩
  · by_cases hq : query = "" <;>
      simp [mountUsersPage, initSearchQuery, serializeUrl, hq]
  · rcases hstatus with h | h | h <;>
      simp [mountUsersPage, initStatusFilter, serializeUrl, h]
  · simp only [mountUsersPage, initPagination, serializeUrl, hpp]
    rw [if_neg (jsStringOfNat_ne_empty page), jsParseNat_jsStringOfNat]
    rfl
  · by_cases hps : pageSize = 10
    · simp [mountUsersPage, initPagination, serializeUrl, hps]
    · simp only [mountUsersPage, initPagination, serializeUrl, if_pos hps, ne_eq, hps,
        not_false_iff, if_neg (jsStringOfNat_ne_empty pageSize)]
      simp [if_neg (jsStringOfNat_ne_empty pageSize), jsParseNat_jsStringOfNat]
  · simp [resetEffect, mountUsersPage]

/-- C3 witness: the round trip at page 3, pageSize 10, status 'active',
query 'bob'. -/
theorem c3_url_state_roundtrip_witness :
    (mountUsersPage (serializeUrl "bob" "active" ⟨2, 10⟩)).pagination.pageIndex = 2 :=
  (c3_url_state_roundtrip 3 10 "active" "bob" (by omega) (Or.inr (Or.inl rfl))).2.2.1

/-- C4: the reset effect sends the page to 1 (pageIndex 0) exactly when the
settled search text or the status filter differs from its previous settled
value (keeping pageSize); an unchanged pair leaves the state alone; the effect
never resets on the initial mount; the status-filter handler jumps to page 1;
and an explicit pagination change (page navigation or page-size change) is
adopted verbatim and does not trigger a reset. -/
theorem c4_pagination_reset (s : ControllerState) (d newStatus : String)
    (np : PaginationState) :
    (s.isInitialMount = false → (s.prevSearchQuery ≠ d ∨ s.prevStatusFilter ≠ s.statusFilter) →
      (resetEffect d s).pagination.pageIndex = 0 ∧
      (resetEffect d s).pagination.pageSize = s.pagination.pageSize) ∧
    (s.isInitialMount = false → s.prevSearchQuery = d → s.prevStatusFilter = s.statusFilter →
      resetEffect d s = s) ∧
    (s.isInitialMount = true → (resetEffect d s).pagination = s.pagination) ∧
    (handleStatusFilterChange newStatus s).pagination.pageIndex = 0 ∧
    (handleStatusFilterChange newStatus s).statusFilter = newStatus ∧
    (handlePaginationChange np s).pagination = np ∧
    (s.isInitialMount = false → s.prevSearchQuery = d → s.prevStatusFilter = s.statusFilter →
      (resetEffect d (handlePaginationChange np s)).pagination = np) := by
  refine ⟨?_, ?_, ?_, rfl, rfl, rfl, ?_⟩
  · intro hm hch
    simp [resetEffect, hm, if_pos hch]
  · intro hm h1 h2
    simp [resetEffect, hm, h1, h2]
  · intro hm
    simp [resetEffect, hm]
  · intro hm h1 h2
    simp [resetEffect, handlePaginationChange, hm, h1, h2]

/-- C4 witness: from a settled state on page 3 (pageIndex 2) with status
'active', a status change to 'inactive' makes the effect reset the page index
to 0 while keeping the page size. -/
theorem c4_pagination_reset_witness :
    (resetEffect "bob"
        { searchQuery := "bob", statusFilter := "inactive",
          pagination := ⟨2, 10⟩, isInitialMount := false,
          prevSearchQuery := "bob", prevStatusFilter := "active" }).pagination.pageIndex = 0 :=
  ((c4_pagination_reset
      { searchQuery := "bob", statusFilter := "inactive",
        pagination := ⟨2, 10⟩, isInitialMount := false,
        prevSearchQuery := "bob", prevStatusFilter := "active" }
      "bob" "inactive" ⟨2, 25⟩).1 rfl (Or.inr (by decide))).1

/-- C5: the URL serializer always emits the page parameter (even for page 1),
and omits pageSize, status and query exactly when they equal their defaults
10, 'all' and the empty string. -/
theorem c5_url_defaults_omitted (searchQuery statusFilter : String) (p : PaginationState) :
    (serializeUrl searchQuery statusFilter p).page
      = some (jsStringOfNat (p.pageIndex + 1)) ∧
    (serializeUrl searchQuery statusFilter p).page ≠ none ∧
    ((serializeUrl searchQuery statusFilter p).pageSize = none ↔ p.pageSize = 10) ∧
    ((serializeUrl searchQuery statusFilter p).status = none ↔ statusFilter = "all") ∧
    ((serializeUrl searchQuery statusFilter p).query = none ↔ searchQuery = "") := by
  refine ⟨rfl, by simp [serializeUrl], ?_, ?_, ?_⟩
  · by_cases h : p.pageSize = 10 <;> simp [serializeUrl, h]
  · by_cases h : statusFilter = "all" <;> simp [serializeUrl, h]
  · by_cases h : searchQuery = "" <;> simp [serializeUrl, h]

/-! ## Remote data cache: useUsers / useUpdateUserStatus

The react-query cache is modelled as an association list from query keys to
optional cached responses. `userQueryKeys.all = ['users']` is the key-family
filter; `userQueryKeys.list(params) = ['users','list',params]` are the list
keys; keys outside the family are also representable. -/

/-- Parameters of a users list query (the cache key payload). -/
structure PaginationParams where
  page : Nat
  pageSize : Nat
  query : String
  status : String
deriving DecidableEq, Repr

/-- Query keys that can live in the cache. -/
inductive QueryKey
  | usersAll
  | usersList (params : PaginationParams)
  | other (name : String)
deriving DecidableEq, Repr

/-- Whether a key matches the `{ queryKey: userQueryKeys.all }` filter, i.e.
starts with the `['users']` prefix. -/
def matchesUsersKey : QueryKey → Bool
  | .usersAll => true
  | .usersList _ => true
  | .other _ => false

/-- The query cache: entries keyed by `QueryKey`; `none` models a cache entry
whose data is `undefined`. -/
abbrev QueryCache := List (QueryKey × Option UsersApiResponse)

/-- Model of `queryClient.getQueriesData({ queryKey: userQueryKeys.all })`. -/
def getQueriesData (cache : QueryCache) : QueryCache :=
  cache.filter (fun e => matchesUsersKey e.1)

/-- Model of `queryClient.setQueriesData({ queryKey: userQueryKeys.all }, updater)`. -/
def setQueriesData (updater : Option UsersApiResponse → Option UsersApiResponse)
    (cache : QueryCache) : QueryCache :=
  cache.map (fun e => if matchesUsersKey e.1 then (e.1, updater e.2) else e)

/-- Model of `queryClient.setQueryData(queryKey, data)` for a key already in
the cache (the rollback only writes keys captured from the cache itself). -/
def setQueryData (key : QueryKey) (data : Option UsersApiResponse)
    (cache : QueryCache) : QueryCache :=
  cache.map (fun e => if e.1 = key then (key, data) else e)

/-- The updater passed to `setQueriesData` in `onMutate`: for a defined cached
response, rewrite each user whose `userId` matches to carry the new status
(`{ ...user, status }`); the guard `if (!old?.data?.users) return old` is the
`none` case. -/
def optimisticUpdater (userId status : String) :
    Option UsersApiResponse → Option UsersApiResponse
  | none => none
  | some old =>
    some { old with data := { old.data with
      users := old.data.users.map (fun user =>
        if user.userId = userId then { user with status := status } else user) } }

/-- Model of `useUpdateUserStatus.onMutate`: snapshot all users-family entries
(`previousQueries`), then apply the optimistic write to all of them; returns
`(previousQueries, new cache)`. -/
def onMutate (userId status : String) (cache : QueryCache) : QueryCache × QueryCache :=
  (getQueriesData cache, setQueriesData (optimisticUpdater userId status) cache)

/-- Model of `useUpdateUserStatus.onError`: write every snapshotted
`(queryKey, data)` pair back into the cache, in snapshot order. -/
def onError (previousQueries : QueryCache) (cache : QueryCache) : QueryCache :=
  previousQueries.foldl (fun c e => setQueryData e.1 e.2 c) cache

/-- Cache plus the set of keys marked stale by invalidation. -/
structure CacheState where
  entries : QueryCache
  staleKeys : List QueryKey
deriving DecidableEq, Repr

/-- Model of `queryClient.invalidateQueries({ queryKey: userQueryKeys.all })`:
every users-family key currently in the cache is marked stale. -/
def invalidateQueries (s : CacheState) : CacheState :=
  { s with
    staleKeys := s.staleKeys ++ (s.entries.filter (fun e => matchesUsersKey e.1)).map Prod.fst }

/-- Outcome of the `updateUserStatus(userId, status)` network call. -/
inductive MutationOutcome
  | success
  | failure
deriving DecidableEq, Repr

/-- One full run of the `useUpdateUserStatus` mutation: `onMutate` (snapshot +
optimistic write), then on failure `onError` (rollback), then in either case
`onSettled` (unconditional invalidation of the users key family). -/
def runUpdateUserStatus (userId status : String) (outcome : MutationOutcome)
    (s : CacheState) : CacheState :=
  let previousQueries := (onMutate userId status s.entries).1
  let written := (onMutate userId status s.entries).2
  let afterResult :=
    match outcome with
    | .success => written
    | .failure => onError previousQueries written
  invalidateQueries { entries := afterResult, staleKeys := s.staleKeys }

/-- First value stored under a key in an association-list cache. -/
def lookupKey (k : QueryKey) : QueryCache → Option (Option UsersApiResponse)
  | [] => none
  | e :: es => if e.1 = k then some e.2 else lookupKey k es

theorem lookupKey_eq_none {k : QueryKey} : ∀ {l : QueryCache},
    k ∉ l.map Prod.fst → lookupKey k l = none
  | [], _ => rfl
  | e :: es, h => by
    have h1 : e.1 ≠ k := by
      intro hk
      exact h (by simp [hk.symm])
    have h2 : k ∉ es.map Prod.fst := by
      intro hk
      exact h (by simp [hk])
    simp [lookupKey, h1, lookupKey_eq_none h2]

theorem onError_eq_map (snap : QueryCache) (c : QueryCache)
    (hn : (snap.map Prod.fst).Nodup) :
    onError snap c = c.map (fun e =>
      match lookupKey e.1 snap with
      | some d => (e.1, d)
      | none => e) := by
  induction snap generalizing c with
  | nil =>
    simp [onError, lookupKey]
  | cons e0 rest ih =>
    have hn' : (rest.map Prod.fst).Nodup := (List.nodup_cons.mp hn).2
    have hnotin : e0.1 ∉ rest.map Prod.fst := (List.nodup_cons.mp hn).1
    have hstep : onError (e0 :: rest) c = onError rest (setQueryData e0.1 e0.2 c) := rfl
    rw [hstep, ih _ hn']
    unfold setQueryData
    rw [List.map_map]
    apply List.map_congr_left
    intro a _
    by_cases hk : a.1 = e0.1
    · have hre : lookupKey e0.1 rest = none := lookupKey_eq_none hnotin
      simp [Function.comp, if_pos hk, lookupKey, hk, hre]
    · simp only [Function.comp, if_neg hk, lookupKey]
      have : e0.1 ≠ a.1 := fun h => hk h.symm
      simp [this]

theorem lookupKey_filter {cache : QueryCache} (hn : (cache.map Prod.fst).Nodup) :
    ∀ e ∈ cache,
      lookupKey e.1 (cache.filter (fun x => matchesUsersKey x.1)) =
        if matchesUsersKey e.1 then some e.2 else none := by
  induction cache with
  | nil => intro e he; cases he
  | cons e0 rest ih =>
    intro e he
    have hn' : (rest.map Prod.fst).Nodup := (List.nodup_cons.mp hn).2
    have hnotin : e0.1 ∉ rest.map Prod.fst := (List.nodup_cons.mp hn).1
    rcases List.mem_cons.mp he with rfl | hmem
    · by_cases hm : matchesUsersKey e.1
      · rw [List.filter_cons_of_pos (by simpa using hm)]
        simp [lookupKey, hm]
      · rw [List.filter_cons_of_neg (by simpa using hm)]
        have : e.1 ∉ (rest.filter (fun x => matchesUsersKey x.1)).map Prod.fst := by
          intro hk
          apply hnotin
          rcases List.mem_map.mp hk with ⟨x, hx, hx1⟩
          exact List.mem_map.mpr ⟨x, List.mem_of_mem_filter hx, hx1⟩
        rw [lookupKey_eq_none this]
        simp [hm]
    · have hne : e0.1 ≠ e.1 := by
        intro hk
        exact hnotin (List.mem_map.mpr ⟨e, hmem, hk.symm⟩)
      by_cases hm0 : matchesUsersKey e0.1
      · rw [List.filter_cons_of_pos (by simpa using hm0)]
        simp only [lookupKey, if_neg hne]
        exact ih hn' e hmem
      · rw [List.filter_cons_of_neg (by simpa using hm0)]
        exact ih hn' e hmem

/-- Helper: the rollback applied to the optimistically written cache restores
the original cache exactly (keys are unique in a react-query cache). -/
theorem onError_onMutate_eq (userId status : String) (cache : QueryCache)
    (hn : (cache.map Prod.fst).Nodup) :
    onError (onMutate userId status cache).1 (onMutate userId status cache).2 = cache := by
  have hsub : List.Sublist ((cache.filter (fun e => matchesUsersKey e.1)).map Prod.fst)
      (cache.map Prod.fst) := List.Sublist.map Prod.fst (List.filter_sublist cache)
  have hsnap : ((getQueriesData cache).map Prod.fst).Nodup := List.Nodup.sublist hsub hn
  unfold onMutate
  rw [onError_eq_map _ _ hsnap]
  unfold setQueriesData
  rw [List.map_map]
  have key : ∀ a ∈ cache,
      ((fun e => match lookupKey e.1 (getQueriesData cache) with
        | some d => (e.1, d)
        | none => e) ∘
        (fun e => if matchesUsersKey e.1 then (e.1, optimisticUpdater userId status e.2) else e))
        a = a := by
    intro a ha
    have hl : lookupKey a.1 (getQueriesData cache)
        = if matchesUsersKey a.1 then some a.2 else none := lookupKey_filter hn a ha
    by_cases hm : matchesUsersKey a.1 = true
    · rw [if_pos hm] at hl
      simp [Function.comp, hm, hl]
    · rw [if_neg hm] at hl
      simp [Function.comp, hm, hl]
  rw [List.map_congr_left key]
  simp

/-- C1: when the status mutation fails, the `onError` rollback restores every
cache entry snapshotted in `previousQueries` during `onMutate` exactly: the
whole cache equals its value before the optimistic write (atomicity of the
mutation on the cache with respect to failure). Keys are unique in a
react-query cache. -/
theorem c1_rollback_atomicity (userId status : String) (cache : QueryCache)
    (hn : (cache.map Prod.fst).Nodup) :
    onError (onMutate userId status cache).1 (onMutate userId status cache).2 = cache :=
  onError_onMutate_eq userId status cache hn

/-- Sample user for concrete evaluations. -/
def sampleUser : User :=
  { userId := "u1", name := "Bob Stone", email := "bob@example.com",
    status := "active", createdAt := "2024-01-01",
    groups := [{ groupId := "1", groupName := "Admins",
                 roles := [{ roleId := "r1", roleName := "Owner" }] }] }

/-- Second sample user, not targeted by the mutations below. -/
def sampleUser2 : User :=
  { userId := "u2", name := "Ann Ray", email := "ann@example.com",
    status := "inactive", createdAt := "2024-02-02", groups := [] }

/-- Sample cache: one users-list page, the bare family key, and an unrelated
entry. -/
def sampleCache : QueryCache :=
  [ (QueryKey.usersList ⟨1, 10, "", "all"⟩, some ⟨⟨[sampleUser, sampleUser2], 2⟩⟩),
    (QueryKey.usersAll, none),
    (QueryKey.other "settings", some ⟨⟨[], 0⟩⟩) ]

/-- C1 witness: rollback after a failed mutation restores the sample cache. -/
theorem c1_rollback_atomicity_witness :
    onError (onMutate "u1" "inactive" sampleCache).1 (onMutate "u1" "inactive" sampleCache).2
      = sampleCache :=
  c1_rollback_atomicity "u1" "inactive" sampleCache (by decide)

/-- C2: the optimistic write changes only the status field of users whose
userId matches, in every cached page: entries outside the users key family are
untouched, the cache keeps its shape, an undefined cached value stays
undefined, and inside every defined response the totalCount and the user list
length are unchanged, non-matching user records are unchanged, and a matching
record differs only in its status field. -/
theorem c2_optimistic_write_frame (userId status : String) (cache : QueryCache) :
    (∀ e ∈ cache, matchesUsersKey e.1 = false → e ∈ (onMutate userId status cache).2) ∧
    (onMutate userId status cache).2.length = cache.length ∧
    optimisticUpdater userId status none = none ∧
    (∀ old : UsersApiResponse,
      ∃ newResp : UsersApiResponse,
        optimisticUpdater userId status (some old) = some newResp ∧
        newResp.data.totalCount = old.data.totalCount ∧
        newResp.data.users.length = old.data.users.length ∧
        (∀ i : Fin old.data.users.length, ∀ hi : i.val < newResp.data.users.length,
          (old.data.users.get i).userId ≠ userId →
            newResp.data.users.get ⟨i.val, hi⟩ = old.data.users.get i) ∧
        (∀ i : Fin old.data.users.length, ∀ hi : i.val < newResp.data.users.length,
          (old.data.users.get i).userId = userId →
            newResp.data.users.get ⟨i.val, hi⟩
              = { old.data.users.get i with status := status })) := by
  refine ⟨?_, ?_, rfl, ?_⟩
  · intro e he hm
    unfold onMutate setQueriesData
    exact List.mem_map.mpr ⟨e, he, by simp [hm]⟩
  · unfold onMutate setQueriesData
    exact List.length_map _ _
  · intro old
    refine ⟨_, rfl, rfl, by simp [List.length_map], ?_, ?_⟩
    · intro i hi hne
      simp only [List.get_eq_getElem] at hne
      simp only [List.get_eq_getElem, List.getElem_map, if_neg hne]
    · intro i hi heq
      simp only [List.get_eq_getElem] at heq
      simp only [List.get_eq_getElem, List.getElem_map, if_pos heq]

/-- C2 witness: in the sample cache, the optimistic write for user u1 flips
only u1's status and leaves u2 and the counts alone. -/
theorem c2_optimistic_write_frame_witness :
    optimisticUpdater "u1" "inactive" none = none ∧
    (QueryKey.other "settings", (some ⟨⟨[], 0⟩⟩ : Option UsersApiResponse))
      ∈ (onMutate "u1" "inactive" sampleCache).2 := by
  refine ⟨(c2_optimistic_write_frame "u1" "inactive" sampleCache).2.2.1, ?_⟩
  exact (c2_optimistic_write_frame "u1" "inactive" sampleCache).1
    (QueryKey.other "settings", some ⟨⟨[], 0⟩⟩) (by decide) (by decide)

/-- C6: after any run of the status mutation — success or failure — the
unconditional `onSettled` invalidation marks every users-family key in the
cache stale; on success this happens even though the optimistic cache value is
still in place, and on failure the cache has already been rolled back. -/
theorem c6_unconditional_invalidation (userId status : String) (outcome : MutationOutcome)
    (s : CacheState) (hn : (s.entries.map Prod.fst).Nodup) :
    (∀ e ∈ (runUpdateUserStatus userId status outcome s).entries,
        matchesUsersKey e.1 = true →
        e.1 ∈ (runUpdateUserStatus userId status outcome s).staleKeys) ∧
    (outcome = .success →
      (runUpdateUserStatus userId status outcome s).entries
        = (onMutate userId status s.entries).2) ∧
    (outcome = .failure →
      (runUpdateUserStatus userId status outcome s).entries = s.entries) := by
  refine ⟨?_, ?_, ?_⟩
  · intro e he hm
    unfold runUpdateUserStatus invalidateQueries at *
    simp only [List.mem_append]
    right
    exact List.mem_map.mpr ⟨e, List.mem_filter.mpr ⟨he, by simpa using hm⟩, rfl⟩
  · intro h
    subst h
    rfl
  · intro h
    subst h
    show onError (onMutate userId status s.entries).1 (onMutate userId status s.entries).2
      = s.entries
    exact onError_onMutate_eq userId status s.entries hn

/-- C6 witness: a failed mutation on the sample cache still marks the
users-family keys stale while the cache data is back to its original value. -/
theorem c6_unconditional_invalidation_witness :
    (runUpdateUserStatus "u1" "inactive" MutationOutcome.failure
        ⟨sampleCache, []⟩).entries = sampleCache :=
  (c6_unconditional_invalidation "u1" "inactive" MutationOutcome.failure
    ⟨sampleCache, []⟩ (by decide)).2.2 rfl

/-! ## Network-status monitor: isNetworkError -/

/-- A JavaScript value passed as the `unknown` error argument: an `Error`
object (`instanceof Error`), a plain string, or `null`/`undefined` (merged
into one nullish constructor — the code cannot distinguish them here). -/
inductive JsErrorValue
  | errObj (message : String)
  | str (s : String)
  | nullish
deriving DecidableEq, Repr

/-- JS truthiness of the error argument as tested by `if (!error)`:
`null`/`undefined` and the empty string are falsy; an `Error` object is
always truthy, even with an empty message. -/
def isTruthyError : JsErrorValue → Bool
  | .errObj _ => true
  | .str s => s ≠ ""
  | .nullish => false

/-- The text the classifier inspects:
`error instanceof Error ? error.message : String(error)` (lowercasing is done
at the call site below). `String(null)` is only reachable behind the falsy
guard, so its value is irrelevant. -/
def errorMessageText : JsErrorValue → String
  | .errObj m => m
  | .str s => s
  | .nullish => "null"

/-- Model of JS `toLowerCase()` (ASCII range, which covers all messages and
substrings involved): per-character lowering over the string's characters. -/
def jsToLower (s : String) : String := ⟨s.data.map Char.toLower⟩

/-- Check whether `sub` occurs as a contiguous subsequence of the haystack. -/
def listContainsSeq (sub : List Char) : List Char → Bool
  | [] => sub.isEmpty
  | c :: rest => sub.isPrefixOf (c :: rest) || listContainsSeq sub rest

/-- JS `hay.includes(sub)`. -/
def strIncludes (hay sub : String) : Bool :=
  listContainsSeq sub.toList hay.toList

/-- Model of `isNetworkError` from `useNetworkStatus.ts`: falsy errors are
rejected first; otherwise the lowercased message is scanned for the eight
literal substrings of the source, with `!navigator.onLine` as the final
disjunct. -/
def isNetworkError (error : JsErrorValue) (onLine : Bool) : Bool :=
  if !(isTruthyError error) then false
  else
    let errorMessage := jsToLower (errorMessageText error)
    strIncludes errorMessage "network" ||
    strIncludes errorMessage "failed to fetch" ||
    strIncludes errorMessage "fetch failed" ||
    strIncludes errorMessage "networkerror" ||
    strIncludes errorMessage "net::" ||
    strIncludes errorMessage "timeout" ||
    strIncludes errorMessage "aborted" ||
    strIncludes errorMessage "connection" ||
    !onLine

/-- Modelled from the spec's words, for comparison with the source behaviour:
the substring list the spec names for the classifier (network, fetch failure,
timeout, abort, connection). -/
def specNetworkSubstrings : List String :=
  ["network", "fetch failure", "timeout", "abort", "connection"]

/-- The claim C8 classifier condition, stated with the spec's substring
list. -/
def specNetworkErrorPred (error : JsErrorValue) (onLine : Bool) : Prop :=
  (∃ sub ∈ specNetworkSubstrings,
    strIncludes (jsToLower (errorMessageText error)) sub = true) ∨ onLine = false

/-- C8 counterexample: the Chromium-style message `net::ERR_FAILED` is
classified as a network error by the code (it contains the source substring
`net::`), but contains none of the five substrings the claim names, and the
connectivity flag is true — so the claimed equivalence fails. -/
theorem c8_spec_substring_list_counterexample :
    isNetworkError (.errObj "net::ERR_FAILED") true = true ∧
    ¬ specNetworkErrorPred (.errObj "net::ERR_FAILED") true := by
  constructor
  · decide
  · unfold specNetworkErrorPred
    decide

/-- C8 amended: for every truthy error value, `isNetworkError` returns true
iff the lowercased message contains one of the source's eight substrings
(network, failed to fetch, fetch failed, networkerror, net::, timeout,
aborted, connection) or the connectivity flag is false; in particular, when
`navigator.onLine` is false it returns true regardless of message content. -/
theorem c8_network_error_classifier (error : JsErrorValue) (onLine : Bool)
    (ht : isTruthyError error = true) :
    (isNetworkError error onLine = true ↔
      ((∃ sub ∈ ["network", "failed to fetch", "fetch failed", "networkerror",
                 "net::", "timeout", "aborted", "connection"],
          strIncludes (jsToLower (errorMessageText error)) sub = true) ∨ onLine = false)) ∧
    (onLine = false → isNetworkError error onLine = true) := by
  constructor
  · unfold isNetworkError
    rw [ht]
    simp only [Bool.not_true, Bool.false_eq_true, if_false, Bool.or_eq_true,
      Bool.not_eq_true']
    simp only [List.mem_cons, List.not_mem_nil, or_false, exists_eq_or_imp, exists_eq_left]
    tauto
  · intro h
    unfold isNetworkError
    rw [ht, h]
    simp

/-- C8 witness: offline, a truthy error with an unrelated message is still
classified as a network error. -/
theorem c8_network_error_classifier_witness :
    isNetworkError (.errObj "totally unrelated text") false = true :=
  (c8_network_error_classifier (.errObj "totally unrelated text") false rfl).2 rfl

/-- C10: for a null or undefined error the falsy-error early return precedes
the connectivity check, so `isNetworkError` is false for every value of the
connectivity flag — including offline. -/
theorem c10_nullish_error_always_false (onLine : Bool) :
    isNetworkError .nullish onLine = false := rfl

/-! ## Preference store: useLocalStorage / useTablePreferences -/

/-- Table density setting. -/
inductive Density
  | comfortable
  | compact
  | spacious
deriving DecidableEq, Repr

/-- One sorting entry `{ id, desc }`. -/
structure SortSpec where
  id : String
  desc : Bool
deriving DecidableEq, Repr

/-- Per-view table preferences. -/
structure TablePreferences where
  columnVisibility : List (String × Bool)
  sorting : List SortSpec
  density : Density
deriving DecidableEq, Repr

/-- The documented default preferences. -/
def defaultTablePreferences : TablePreferences :=
  { columnVisibility := [], sorting := [], density := .comfortable }

/-- A raw string persisted in `localStorage`: either the `JSON.stringify`
image of a preferences value (which `JSON.parse` recovers), or a string that
`JSON.parse` throws on. -/
inductive StoredValue
  | json (p : TablePreferences)
  | malformed (raw : String)
deriving DecidableEq, Repr

/-- Model of `JSON.parse` on a stored string: recovers a stringified
preferences value, throws on malformed input. -/
def jsonParsePreferences : StoredValue → Except Unit TablePreferences
  | .json p => .ok p
  | .malformed _ => .error ()

/-- Association-list read of a storage key. -/
def lookupStored (key : String) : List (String × StoredValue) → Option StoredValue
  | [] => none
  | e :: es => if e.1 = key then some e.2 else lookupStored key es

/-- Association-list write of a storage key. -/
def writeStored (key : String) (v : StoredValue) :
    List (String × StoredValue) → List (String × StoredValue)
  | [] => [(key, v)]
  | e :: es => if e.1 = key then (key, v) :: es else e :: writeStored key v es

/-- Association-list removal of a storage key. -/
def removeStored (key : String) : List (String × StoredValue) → List (String × StoredValue)
  | [] => []
  | e :: es => if e.1 = key then es else e :: removeStored key es

/-- Browser `localStorage`: its entries plus a failure flag — when `fails` is
true every access throws (storage disabled, quota exceeded). -/
structure BrowserStorage where
  entries : List (String × StoredValue)
  fails : Bool
deriving DecidableEq, Repr

/-- Model of `window.localStorage.getItem`. -/
def getItem (st : BrowserStorage) (key : String) : Except Unit (Option StoredValue) :=
  if st.fails then .error () else .ok (lookupStored key st.entries)

/-- Model of `window.localStorage.setItem`. -/
def setItem (st : BrowserStorage) (key : String) (v : StoredValue) :
    Except Unit BrowserStorage :=
  if st.fails then .error () else .ok { st with entries := writeStored key v st.entries }

/-- Model of `window.localStorage.removeItem`. -/
def removeItem (st : BrowserStorage) (key : String) : Except Unit BrowserStorage :=
  if st.fails then .error () else .ok { st with entries := removeStored key st.entries }

/-- The `useState` initializer of `useLocalStorage`: try
`getItem(key)`, parse it if present, and fall back to `initialValue` both when
the entry is absent and when anything throws (the catch clause). An empty
stored string is both JS-falsy and unparsable, so it lands in the fallback
either way. -/
def loadStoredValue (st : BrowserStorage) (key : String) (initial : TablePreferences) :
    TablePreferences :=
  match getItem st key with
  | .error _ => initial
  | .ok none => initial
  | .ok (some s) =>
    match jsonParsePreferences s with
    | .ok v => v
    | .error _ => initial

/-- The persisting `useEffect` of `useLocalStorage`: `setItem` inside
try/catch; on a storage failure the warning is logged and the storage is left
as it was — the in-memory state keeps working. -/
def saveEffect (st : BrowserStorage) (key : String) (value : TablePreferences) :
    BrowserStorage :=
  match setItem st key (.json value) with
  | .ok st2 => st2
  | .error _ => st

/-- The `removeValue` callback of `useLocalStorage`: `removeItem` then reset
the in-memory state to `initialValue`, all inside try/catch — if `removeItem`
throws, the in-memory reset is skipped and the previous value stays. Returns
(storage, in-memory value). -/
def removeValue (st : BrowserStorage) (key : String)
    (initial memory : TablePreferences) : BrowserStorage × TablePreferences :=
  match removeItem st key with
  | .ok st2 => (st2, initial)
  | .error _ => (st, memory)

/-- The storage key `useTablePreferences` derives from a view identifier. -/
def prefKey (tableId : String) : String := "table-preferences-" ++ tableId

/-- C9: loading preferences returns the documented default
`{columnVisibility:{}, sorting:[], density:'comfortable'}` whenever the stored
entry is absent or unparsable; and load, save and reset are total (every
exception is caught inside), degrading to in-memory-only behaviour on a
storage failure: save leaves the storage untouched, reset keeps the previous
in-memory preferences (still a valid value), and load yields the default. -/
theorem c9_preferences_default_and_degradation (st : BrowserStorage) (tableId : String)
    (memory : TablePreferences) :
    (st.fails = false →
      lookupStored (prefKey tableId) st.entries = none →
      loadStoredValue st (prefKey tableId) defaultTablePreferences
        = defaultTablePreferences) ∧
    (∀ raw, st.fails = false →
      lookupStored (prefKey tableId) st.entries = some (.malformed raw) →
      loadStoredValue st (prefKey tableId) defaultTablePreferences
        = defaultTablePreferences) ∧
    (st.fails = true →
      loadStoredValue st (prefKey tableId) defaultTablePreferences
          = defaultTablePreferences ∧
      saveEffect st (prefKey tableId) memory = st ∧
      removeValue st (prefKey tableId) defaultTablePreferences memory = (st, memory)) ∧
    (st.fails = false →
      (removeValue st (prefKey tableId) defaultTablePreferences memory).2
        = defaultTablePreferences) := by
  refine ⟨?_, ?_, ?_, ?_⟩
  · intro hf habs
    simp [loadStoredValue, getItem, hf, habs]
  · intro raw hf hmal
    simp [loadStoredValue, getItem, hf, hmal, jsonParsePreferences]
  · intro hf
    refine ⟨?_, ?_, ?_⟩
    · simp [loadStoredValue, getItem, hf]
    · simp [saveEffect, setItem, hf]
    · simp [removeValue, removeItem, hf]
  · intro hf
    simp [removeValue, removeItem, hf]

/-- C9 witness: with storage disabled and an in-memory value on hand, load
gives the default and save/reset leave everything intact; with storage
working but the entry unparsable, load also gives the default. -/
theorem c9_preferences_default_and_degradation_witness :
    loadStoredValue ⟨[("table-preferences-users-table", .malformed "not valid json")], false⟩
        (prefKey "users-table") defaultTablePreferences = defaultTablePreferences ∧
    saveEffect ⟨[], true⟩ (prefKey "users-table") defaultTablePreferences = ⟨[], true⟩ := by
  constructor
  · exact (c9_preferences_default_and_degradation
      ⟨[("table-preferences-users-table", .malformed "not valid json")], false⟩
      "users-table" defaultTablePreferences).2.1 "not valid json" rfl (by decide)
  · exact ((c9_preferences_default_and_degradation ⟨[], true⟩ "users-table"
      defaultTablePreferences).2.2.1 rfl).2.1

/-! ## Debounce utility: useDebounce

The hook's implementation file `src/hooks/useDebounce.ts` is not among the
sources — only its test suite and call sites are — so the machine below is
modelled from the spec (section 4.3) and checked against the scenarios of the
test suite. -/

/-- Modelled from the spec: missing source `src/hooks/useDebounce.ts`.
State of the debounce hook: the current clock, the exposed value, the pending
`setTimeout` (value to publish, absolute deadline), and the log of values
actually published, each with its publication time. -/
structure DebounceState (α : Type) where
  now : Nat
  current : α
  pending : Option (α × Nat)
  emitted : List (Nat × α)

/-- Events driving the hook: a re-render with a changed input value, or the
passage of `n` milliseconds. -/
inductive DebounceEvent (α : Type)
  | change (v : α)
  | advance (n : Nat)

/-- Modelled from the spec: missing source `src/hooks/useDebounce.ts`.
One step: a changed value clears any pending timer and schedules the new
value `delay` ms ahead; advancing the clock past the deadline fires the timer
at the deadline, publishing the pending value exactly once. -/
def debounceStep {α : Type} (delay : Nat) (s : DebounceState α) :
    DebounceEvent α → DebounceState α
  | .change v => { s with pending := some (v, s.now + delay) }
  | .advance n =>
    match s.pending with
    | some p =>
      if p.2 ≤ s.now + n then
        { now := s.now + n, current := p.1, pending := none,
          emitted := s.emitted ++ [(p.2, p.1)] }
      else { s with now := s.now + n }
    | none => { s with now := s.now + n }

/-- Run a list of events. -/
def debounceRun {α : Type} (delay : Nat) (s : DebounceState α) :
    List (DebounceEvent α) → DebounceState α
  | [] => s
  | e :: es => debounceRun delay (debounceStep delay s e) es

/-- Teardown: the cleanup cancels the pending timer. -/
def unmountDebounce {α : Type} (s : DebounceState α) : DebounceState α :=
  { s with pending := none }

/-- Total time consumed by a gap/value update list. -/
def sumGaps {α : Type} (updates : List (Nat × α)) : Nat :=
  (updates.map Prod.fst).sum

/-- Last value of an update list, defaulting to `u`. -/
def lastValD {α : Type} (u : α) (updates : List (Nat × α)) : α :=
  updates.foldl (fun _ gv => gv.2) u

theorem debounceRun_append {α : Type} (delay : Nat) (s : DebounceState α)
    (es fs : List (DebounceEvent α)) :
    debounceRun delay s (es ++ fs) = debounceRun delay (debounceRun delay s es) fs := by
  induction es generalizing s with
  | nil => rfl
  | cons e es ih => simp [debounceRun, ih]

theorem debounceRun_pending {α : Type} (delay : Nat) (updates : List (Nat × α))
    (hlt : ∀ gv ∈ updates, gv.1 < delay) :
    ∀ (s : DebounceState α) (u : α), s.pending = some (u, s.now + delay) →
      debounceRun delay s
          ((updates.flatMap fun gv => [.advance gv.1, .change gv.2]) ++ [.advance delay])
        = ⟨s.now + sumGaps updates + delay, lastValD u updates, none,
           s.emitted ++ [(s.now + sumGaps updates + delay, lastValD u updates)]⟩ := by
  induction updates with
  | nil =>
    intro s u hp
    simp only [List.flatMap_nil, List.nil_append, debounceRun, debounceStep, hp]
    simp [sumGaps, lastValD]
  | cons gv rest ih =>
    intro s u hp
    have hg : gv.1 < delay := hlt gv (List.mem_cons_self gv rest)
    have hrest : ∀ x ∈ rest, x.1 < delay := fun x hx => hlt x (List.mem_cons_of_mem gv hx)
    have htrace : (((gv :: rest).flatMap fun x =>
          [DebounceEvent.advance x.1, DebounceEvent.change x.2])
          ++ [DebounceEvent.advance delay])
        = DebounceEvent.advance gv.1 :: DebounceEvent.change gv.2 ::
          ((rest.flatMap fun x => [DebounceEvent.advance x.1, DebounceEvent.change x.2])
            ++ [DebounceEvent.advance delay]) := by
      simp
    rw [htrace]
    show debounceRun delay
        (debounceStep delay (debounceStep delay s (DebounceEvent.advance gv.1))
          (DebounceEvent.change gv.2))
        ((rest.flatMap fun x => [DebounceEvent.advance x.1, DebounceEvent.change x.2])
          ++ [DebounceEvent.advance delay]) = _
    have hstep1 : debounceStep delay s (DebounceEvent.advance gv.1)
        = { s with now := s.now + gv.1 } := by
      simp only [debounceStep, hp]
      rw [if_neg (by omega)]
    rw [hstep1]
    have hstep2 : debounceStep delay { s with now := s.now + gv.1 } (DebounceEvent.change gv.2)
        = ⟨s.now + gv.1, s.current, some (gv.2, s.now + gv.1 + delay), s.emitted⟩ := rfl
    rw [hstep2]
    have hsum : s.now + sumGaps (gv :: rest) + delay
        = s.now + gv.1 + sumGaps rest + delay := by
      simp only [sumGaps, List.map_cons, List.sum_cons]
      omega
    rw [hsum]
    have hlast : lastValD u (gv :: rest) = lastValD gv.2 rest := rfl
    rw [hlast]
    exact ih hrest ⟨s.now + gv.1, s.current, some (gv.2, s.now + gv.1 + delay), s.emitted⟩
      gv.2 rfl

theorem debounceRun_advances_no_pending {α : Type} (delay : Nat) (ns : List Nat) :
    ∀ s : DebounceState α, s.pending = none →
      (debounceRun delay s (ns.map DebounceEvent.advance)).current = s.current ∧
      (debounceRun delay s (ns.map DebounceEvent.advance)).emitted = s.emitted := by
  induction ns with
  | nil => intro s _; exact ⟨rfl, rfl⟩
  | cons n ns ih =>
    intro s hp
    have hstep : debounceStep delay s (DebounceEvent.advance n)
        = { s with now := s.now + n } := by
      simp [debounceStep, hp]
    simp only [List.map_cons, debounceRun, hstep]
    exact ih { s with now := s.now + n } hp

/-- C7 (spec-modelled): for every delay `d` and every nonempty update
sequence whose consecutive updates arrive less than `d` ms apart, the
debounced machine ends exposing the last value of the sequence, having
published it exactly once, exactly `d` ms after the last update, with no
intermediate publication; a zero delay publishes the changed value in the
same tick; and after teardown the cancelled timer delivers nothing, however
far the clock advances. -/
theorem c7_debounce_contract {α : Type} (delay : Nat) :
    (∀ (t0 : Nat) (v0 : α) (first : Nat × α) (rest : List (Nat × α)),
      (∀ gv ∈ rest, gv.1 < delay) →
      debounceRun delay ⟨t0, v0, none, []⟩
          (((first :: rest).flatMap fun gv => [.advance gv.1, .change gv.2])
            ++ [.advance delay])
        = ⟨t0 + first.1 + sumGaps rest + delay, lastValD first.2 rest, none,
           [(t0 + first.1 + sumGaps rest + delay, lastValD first.2 rest)]⟩) ∧
    (∀ (t0 : Nat) (v0 v : α),
      debounceRun 0 ⟨t0, v0, none, []⟩ [.change v, .advance 0]
        = ⟨t0, v, none, [(t0, v)]⟩) ∧
    (∀ (s : DebounceState α) (ns : List Nat),
      (debounceRun delay (unmountDebounce s) (ns.map .advance)).current = s.current ∧
      (debounceRun delay (unmountDebounce s) (ns.map .advance)).emitted = s.emitted) := by
  refine ⟨?_, ?_, ?_⟩
  · intro t0 v0 first rest hlt
    have htrace : (((first :: rest).flatMap fun x =>
          [DebounceEvent.advance x.1, DebounceEvent.change x.2])
          ++ [DebounceEvent.advance delay])
        = DebounceEvent.advance first.1 :: DebounceEvent.change first.2 ::
          ((rest.flatMap fun x => [DebounceEvent.advance x.1, DebounceEvent.change x.2])
            ++ [DebounceEvent.advance delay]) := by
      simp
    rw [htrace]
    exact debounceRun_pending delay rest hlt
      ⟨t0 + first.1, v0, some (first.2, t0 + first.1 + delay), []⟩ first.2 rfl
  · intro t0 v0 v
    simp [debounceRun, debounceStep]
  · intro s ns
    exact debounceRun_advances_no_pending delay ns (unmountDebounce s) rfl

/-- C7 witness: the test-suite scenario — value updates 'ab', 'abc', 'abcd'
200 ms apart with a 500 ms delay starting from 'a' — publishes exactly
'abcd' once, 500 ms after the last update (at t = 900), and nothing else. -/
theorem c7_debounce_contract_witness :
    debounceRun 500 (⟨0, "a", none, []⟩ : DebounceState String)
        ((([(0, "ab"), (200, "abc"), (200, "abcd")] :
            List (Nat × String)).flatMap fun gv => [.advance gv.1, .change gv.2])
          ++ [.advance 500])
      = ⟨900, "abcd", none, [(900, "abcd")]⟩ :=
  (c7_debounce_contract 500).1 0 "a" (0, "ab") [(200, "abc"), (200, "abcd")] (by decide)

end Dashboard
